import Mathlib

/-!
Verification of the room-based live-chat coordination core of the uTube
repository (`backend/chat/manager.py` and the chat-frame dispatch of
`backend/routes/chat_routes.py`).

Shallow embedding conventions:
* A WebSocket connection is identified by a `Nat` token; Python's `is`
  identity comparison becomes equality of these tokens.
* Each Python dict of the `ConnectionManager` becomes a map
  `String → Option α` (`none` = key absent).
* `time.time()` becomes an explicit `now : Nat` argument (epoch seconds);
  Python's float subtraction `now - last < 5` agrees with truncated `Nat`
  subtraction whenever `now < last` as well, since a negative difference is
  also `< 5`.
* The async session loop of `chat_routes.py` is embedded as pure functions
  from state and frame data to a new state plus a trace of I/O effects
  (personal sends, broadcasts, persistence requests).
-/

namespace Chat

/-- Update one key of a string-keyed map (dict assignment / `pop`). -/
def updMap {α : Type} (f : String → Option α) (k : String) (v : Option α) :
    String → Option α :=
  fun x => if x = k then v else f x

/-- One option of a poll: `{"text": ..., "votes": ...}`. The `votes` field is
optional because `vote_poll` reads it with `.get("votes", 0)`, allowing
pre-shaped option records without a vote seed. -/
structure PollOption where
  text : String
  votes : Option Int
  deriving Repr, DecidableEq

/-- Effective vote count of an option (`opt.get("votes", 0)`). -/
def PollOption.count (o : PollOption) : Int := o.votes.getD 0

/-- An active poll as stored in `ConnectionManager.active_polls[room]`. -/
structure Poll where
  question : String
  options : List PollOption
  duration : Int
  voters : List String
  deriving Repr, DecidableEq

/-- The outward projection of a poll returned by `end_poll` / `get_poll`:
question, options and duration only — by construction it has no voters
field, so the voter-identity set is never serialized outward. -/
structure PollResult where
  question : String
  options : List PollOption
  duration : Int
  deriving Repr, DecidableEq

/-- An option argument to `start_poll`: either a plain string label or a
pre-shaped option record. -/
inductive OptIn where
  | str (s : String)
  | obj (o : PollOption)
  deriving Repr, DecidableEq

/-- The whole mutable state of the `ConnectionManager` singleton. -/
structure ManagerState where
  rooms : String → Option (List (Nat × Option String))
  slow_mode : String → Option Bool
  last_message_times : String → Option (String → Option Nat)
  active_polls : String → Option Poll

/-- The freshly constructed manager: all four dicts empty. -/
def initial : ManagerState :=
  { rooms := fun _ => none
    slow_mode := fun _ => none
    last_message_times := fun _ => none
    active_polls := fun _ => none }

/-- `SLOW_MODE_COOLDOWN = 5` seconds. -/
def SLOW_MODE_COOLDOWN : Nat := 5

/-- The connection list of a room (`self.rooms.get(room, [])`). -/
def connList (st : ManagerState) (room : String) : List (Nat × Option String) :=
  (st.rooms room).getD []

/-- The connection identities present in a room. -/
def connIds (st : ManagerState) (room : String) : List Nat :=
  (connList st room).map (fun p => p.1)

/-- `ConnectionManager.connect` (minus the transport `accept()` handshake):
append `(websocket, username)` to the room list, creating the room. -/
def connect (st : ManagerState) (room : String) (ws : Nat)
    (username : Option String) : ManagerState :=
  { st with rooms := updMap st.rooms room (some (connList st room ++ [(ws, username)])) }

/-- `ConnectionManager.disconnect`: drop the connection by identity; if the
room list becomes empty, delete the room and pop slow-mode, cooldown and
poll state for it. -/
def disconnect (st : ManagerState) (room : String) (ws : Nat) : ManagerState :=
  match st.rooms room with
  | none => st
  | some l =>
    let l2 := l.filter (fun p => p.1 != ws)
    if l2.isEmpty then
      { rooms := updMap st.rooms room none
        slow_mode := updMap st.slow_mode room none
        last_message_times := updMap st.last_message_times room none
        active_polls := updMap st.active_polls room none }
    else
      { st with rooms := updMap st.rooms room (some l2) }

/-- `ConnectionManager.get_room_count`. -/
def get_room_count (st : ManagerState) (room : String) : Nat :=
  (connList st room).length

/-- Display name of a connection (`uname or "Anonymous"`). -/
def display (c : Nat × Option String) : String := c.2.getD "Anonymous"

/-- The seen-set loop of `get_viewer_list`: the accumulator is the list of
names already emitted. -/
def viewersAux (room : String) : List (Nat × Option String) → List String → List String
  | [], _ => []
  | c :: rest, seen =>
    let d := display c
    if d ≠ room ∧ d ∉ seen then d :: viewersAux room rest (d :: seen)
    else viewersAux room rest seen

/-- `ConnectionManager.get_viewer_list`: deduplicated display names of the
room's connections, excluding the name equal to the room key. -/
def get_viewer_list (st : ManagerState) (room : String) : List String :=
  match st.rooms room with
  | none => []
  | some conns => viewersAux room conns []

/-- `ConnectionManager.is_slow_mode`. -/
def is_slow_mode (st : ManagerState) (room : String) : Bool :=
  (st.slow_mode room).getD false

/-- `ConnectionManager.set_slow_mode`: set the flag; disabling pops the
room's cooldown table. -/
def set_slow_mode (st : ManagerState) (room : String) (enabled : Bool) :
    ManagerState :=
  let st1 := { st with slow_mode := updMap st.slow_mode room (some enabled) }
  if enabled then st1
  else { st1 with last_message_times := updMap st1.last_message_times room none }

/-- `ConnectionManager.check_slow_mode_cooldown`, with `time.time()` passed
in as `now`. Returns the boolean result together with the updated state
(the Python method mutates `self.last_message_times`). -/
def check_slow_mode_cooldown (st : ManagerState) (room username : String)
    (now : Nat) : Bool × ManagerState :=
  if is_slow_mode st room then
    let tbl := (st.last_message_times room).getD (fun _ => none)
    let st1 := { st with last_message_times := updMap st.last_message_times room (some tbl) }
    let last := (tbl username).getD 0
    if now - last < SLOW_MODE_COOLDOWN then
      (false, st1)
    else
      (true, { st1 with
        last_message_times := updMap st1.last_message_times room
          (some (updMap tbl username (some now))) })
  else
    (true, st)

/-- The cooldown timestamp the code would read for `(room, username)`:
`self.last_message_times.get(room, {}).get(username, 0)`. -/
def lastTime (st : ManagerState) (room u : String) : Nat :=
  (((st.last_message_times room).getD (fun _ => none)) u).getD 0

/-- `ConnectionManager.broadcast`: `fails ws = true` models `ws.send_text`
raising. Every connection in the room's membership snapshot is attempted
(returned as the second component); each failing one is then removed via
`disconnect`. -/
def broadcast (st : ManagerState) (room : String) (fails : Nat → Bool) :
    ManagerState × List Nat :=
  match st.rooms room with
  | none => (st, [])
  | some l =>
    let attempted := l.map (fun p => p.1)
    let dead := (l.filter (fun p => fails p.1)).map (fun p => p.1)
    (dead.foldl (fun s d => disconnect s room d) st, attempted)

/-- `ConnectionManager.start_poll`: normalize string options to
`{text, votes: 0}` records, keep pre-shaped records as given, and replace
the room's poll unconditionally. -/
def start_poll (st : ManagerState) (room question : String)
    (options : List OptIn) (duration : Int := 60) : ManagerState :=
  let formatted := options.map (fun o =>
    match o with
    | OptIn.str s => { text := s, votes := some 0 }
    | OptIn.obj o => o)
  let p : Poll :=
    { question := question, options := formatted, duration := duration,
      voters := [] }
  { st with active_polls := updMap st.active_polls room (some p) }

/-- Increment the vote count of option `i`
(`options[i]["votes"] = options[i].get("votes", 0) + 1`). -/
def bumpVote : List PollOption → Nat → List PollOption
  | [], _ => []
  | o :: rest, 0 => { o with votes := some (o.count + 1) } :: rest
  | o :: rest, n + 1 => o :: bumpVote rest n

/-- `ConnectionManager.vote_poll`: false when no poll is running, the user
already voted, or the index is out of range; otherwise bump the option and
record the voter. Returns the boolean result with the updated state. -/
def vote_poll (st : ManagerState) (room username : String)
    (option_index : Int) : Bool × ManagerState :=
  match st.active_polls room with
  | none => (false, st)
  | some poll =>
    if username ∈ poll.voters then (false, st)
    else if option_index < 0 ∨ (poll.options.length : Int) ≤ option_index then
      (false, st)
    else
      let p : Poll :=
        { poll with
          options := bumpVote poll.options option_index.toNat
          voters := username :: poll.voters }
      (true, { st with active_polls := updMap st.active_polls room (some p) })

/-- `ConnectionManager.end_poll`: pop the poll and project it to the
voterless result shape; `none` models the empty-dict result. -/
def end_poll (st : ManagerState) (room : String) :
    Option PollResult × ManagerState :=
  match st.active_polls room with
  | none => (none, st)
  | some poll =>
    (some { question := poll.question, options := poll.options,
            duration := poll.duration },
     { st with active_polls := updMap st.active_polls room none })

/-- `ConnectionManager.get_poll`: read-only projection of the active poll;
`none` models the empty-dict result. -/
def get_poll (st : ManagerState) (room : String) : Option PollResult :=
  match st.active_polls room with
  | none => none
  | some poll =>
    some { question := poll.question, options := poll.options,
           duration := poll.duration }

/-- Outbound events of the session layer (the shapes the claims need). -/
inductive Event where
  | error (text : String)
  | chat (id : String) (user : String) (text : String) (timestamp : Nat)
      (isMod : Bool)
  | pollVoteEv (optionIndex : Int)
  deriving Repr, DecidableEq

/-- One I/O effect of the session layer: a private send to the current
connection, a room broadcast, or a persistence request to the store. -/
inductive Effect where
  | personal (e : Event)
  | broadcastEv (e : Event)
  | persist (room : String) (sender : String) (text : String) (isMod : Bool)
  deriving Repr, DecidableEq

/-- Python's `str.strip()`: drop leading and trailing whitespace. -/
def pyStrip (s : String) : String :=
  String.mk
    (((s.data.dropWhile Char.isWhitespace).reverse.dropWhile
        Char.isWhitespace).reverse)

/-- The cooldown rejection reply of `chat_websocket`
(an f-string over `manager.SLOW_MODE_COOLDOWN`). -/
def cooldownErrorText : String :=
  "Slow mode is on. Wait " ++ toString SLOW_MODE_COOLDOWN ++
    "s between messages."

/-- The accepted-chat tail of `chat_websocket` (truncation, persistence with
timestamp fallback id, broadcast). `dbId` is the id the external store
assigned, `none` when persistence failed. -/
def acceptChat (st : ManagerState) (room uname text : String) (now : Nat)
    (dbId : Option Nat) (is_creator : Bool) : ManagerState × List Effect :=
  let text := if text.length > 500 then text.take 500 else text
  let timestamp := now * 1000
  let msg_id :=
    match dbId with
    | some i => "msg-" ++ toString i
    | none => "msg-" ++ toString timestamp
  (st, [Effect.persist room uname text is_creator,
        Effect.broadcastEv (Event.chat msg_id uname text timestamp is_creator)])

/-- The chat-text fall-through of `chat_websocket` (lines 245-295 of
`chat_routes.py`): login check, empty-text drop, slow-mode gate for
non-creators, then `acceptChat`. `username = none` is an anonymous
connection; `is_creator` is `username == streamer_username`. -/
def handleChatFrame (st : ManagerState) (room : String)
    (username : Option String) (rawText : String) (now : Nat)
    (dbId : Option Nat) : ManagerState × List Effect :=
  match username with
  | none =>
    (st, [Effect.personal (Event.error "You must be logged in to send messages")])
  | some uname =>
    let text := pyStrip rawText
    if text = "" then (st, [])
    else
      let is_creator := uname = room
      if is_creator then acceptChat st room uname text now dbId true
      else
        let r := check_slow_mode_cooldown st room uname now
        if r.1 then acceptChat r.2 room uname text now dbId false
        else (r.2, [Effect.personal (Event.error cooldownErrorText)])

/-- The `POLL_VOTE` branch of `chat_websocket` (lines 125-142 of
`chat_routes.py`): login check, silent drop when `optionIndex` is absent,
then `vote_poll` with either a broadcast delta or a private error. -/
def handlePollVote (st : ManagerState) (room : String)
    (username : Option String) (optionIndex : Option Int) :
    ManagerState × List Effect :=
  match username with
  | none => (st, [Effect.personal (Event.error "Login required to vote")])
  | some uname =>
    match optionIndex with
    | none => (st, [])
    | some idx =>
      let r := vote_poll st room uname idx
      if r.1 then (r.2, [Effect.broadcastEv (Event.pollVoteEv idx)])
      else (r.2, [Effect.personal (Event.error "Already voted or invalid option")])

/-! ## Helper lemmas -/

@[simp] theorem updMap_same {α : Type} (f : String → Option α) (k : String)
    (v : Option α) : updMap f k v k = v := by
  simp [updMap]

@[simp] theorem updMap_other {α : Type} (f : String → Option α) (k x : String)
    (v : Option α) (h : x ≠ k) : updMap f k v x = f x := by
  simp [updMap, h]

theorem updMap_self {α : Type} (f : String → Option α) (k : String) :
    updMap f k (f k) = f := by
  funext x
  by_cases h : x = k <;> simp [updMap, h]

theorem ManagerState.ext {s t : ManagerState} (h1 : s.rooms = t.rooms)
    (h2 : s.slow_mode = t.slow_mode)
    (h3 : s.last_message_times = t.last_message_times)
    (h4 : s.active_polls = t.active_polls) : s = t := by
  cases s; cases t; simp_all

theorem updMap_updMap {α : Type} (f : String → Option α) (k : String)
    (a b : Option α) : updMap (updMap f k a) k b = updMap f k b := by
  funext x
  by_cases h : x = k <;> simp [updMap, h]

theorem check_cooldown_fst (st : ManagerState) (room u : String) (now : Nat)
    (h : is_slow_mode st room = true) :
    (check_slow_mode_cooldown st room u now).1 =
      decide (SLOW_MODE_COOLDOWN ≤ now - lastTime st room u) := by
  simp only [check_slow_mode_cooldown, h, if_true, lastTime]
  by_cases hc :
      now - ((((st.last_message_times room).getD (fun _ => none)) u).getD 0) <
        SLOW_MODE_COOLDOWN
  · simp [hc]
    try omega
  · simp [hc]
    try omega

theorem check_cooldown_slow_mode_eq (st : ManagerState) (room u : String)
    (now : Nat) :
    ((check_slow_mode_cooldown st room u now).2).slow_mode = st.slow_mode := by
  by_cases h : is_slow_mode st room
  · simp only [check_slow_mode_cooldown, h, if_true]
    by_cases hc :
        now - ((((st.last_message_times room).getD (fun _ => none)) u).getD 0) <
          SLOW_MODE_COOLDOWN
    · simp [hc]
    · simp [hc]
  · simp [check_slow_mode_cooldown, h]

theorem check_cooldown_lastTime_allowed (st : ManagerState) (room u : String)
    (now : Nat) (h : is_slow_mode st room = true)
    (ha : (check_slow_mode_cooldown st room u now).1 = true) :
    lastTime (check_slow_mode_cooldown st room u now).2 room u = now := by
  have hc :
      ¬(now - ((((st.last_message_times room).getD (fun _ => none)) u).getD 0) <
        SLOW_MODE_COOLDOWN) := by
    intro hc
    rw [check_cooldown_fst st room u now h] at ha
    simp [lastTime] at ha
    omega
  simp [check_slow_mode_cooldown, h, hc, lastTime, updMap_updMap]

theorem viewersAux_mem (room : String) (l : List (Nat × Option String)) :
    ∀ (seen : List String) (x : String),
      x ∈ viewersAux room l seen ↔
        x ≠ room ∧ x ∉ seen ∧ ∃ c ∈ l, display c = x := by
  induction l with
  | nil =>
    intro seen x
    simp [viewersAux]
  | cons c rest ih =>
    intro seen x
    by_cases hc : display c ≠ room ∧ display c ∉ seen
    · simp only [viewersAux, if_pos hc, List.mem_cons, ih]
      constructor
      · rintro (rfl | ⟨hxr, hxseen, c', h', hd⟩)
        · exact ⟨hc.1, hc.2, c, Or.inl rfl, rfl⟩
        · push_neg at hxseen
          exact ⟨hxr, hxseen.2, c', Or.inr h', hd⟩
      · rintro ⟨hxr, hxseen, c', h', hd⟩
        cases h' with
        | inl he =>
          left
          rw [← hd, he]
        | inr h2 =>
          by_cases hx : x = display c
          · left
            exact hx
          · right
            refine ⟨hxr, ?_, c', h2, hd⟩
            push_neg
            exact ⟨hx, hxseen⟩
    · simp only [viewersAux, if_neg hc, ih]
      push_neg at hc
      constructor
      · rintro ⟨hxr, hxseen, c', h', hd⟩
        exact ⟨hxr, hxseen, c', List.mem_cons_of_mem c h', hd⟩
      · rintro ⟨hxr, hxseen, c', h', hd⟩
        rw [List.mem_cons] at h'
        cases h' with
        | inl he =>
          exfalso
          subst he
          by_cases hdr : display c' = room
          · apply hxr
            rw [← hd]
            exact hdr
          · apply hxseen
            rw [← hd]
            exact hc hdr
        | inr h2 => exact ⟨hxr, hxseen, c', h2, hd⟩

theorem viewersAux_nodup (room : String) (l : List (Nat × Option String)) :
    ∀ seen, (viewersAux room l seen).Nodup := by
  induction l with
  | nil =>
    intro seen
    simp [viewersAux]
  | cons c rest ih =>
    intro seen
    by_cases hc : display c ≠ room ∧ display c ∉ seen
    · simp only [viewersAux, if_pos hc]
      refine List.nodup_cons.mpr ⟨?_, ih _⟩
      intro hmem
      have hm := (viewersAux_mem room rest (display c :: seen) (display c)).mp
        hmem
      exact hm.2.1 (List.mem_cons_self _ _)
    · simp only [viewersAux, if_neg hc]
      exact ih seen

theorem disconnect_none (st : ManagerState) (room : String) (ws : Nat)
    (h : st.rooms room = none) : disconnect st room ws = st := by
  simp [disconnect, h]

theorem disconnect_of_not_mem (st : ManagerState) (room : String) (ws : Nat)
    (h1 : st.rooms room ≠ some []) (h2 : ws ∉ connIds st room) :
    disconnect st room ws = st := by
  cases h : st.rooms room with
  | none => exact disconnect_none st room ws h
  | some l =>
    have hl : l ≠ [] := by
      intro he
      exact h1 (he ▸ h)
    have hf : l.filter (fun p => p.1 != ws) = l := by
      apply List.filter_eq_self.mpr
      intro p hp
      have hne : p.1 ≠ ws := by
        intro he
        apply h2
        unfold connIds connList
        rw [h]
        simp only [Option.getD_some, List.mem_map]
        exact ⟨p, hp, he⟩
      simpa using hne
    have hemp : (l.filter (fun p => p.1 != ws)).isEmpty = false := by
      rw [hf]
      cases l with
      | nil => exact absurd rfl hl
      | cons a as => rfl
    simp only [disconnect, h, hf, hemp, Bool.false_eq_true, if_false]
    apply ManagerState.ext
    · simp [hl]
      rw [← h, updMap_self]
    · simp [hl]
    · simp [hl]
    · simp [hl]

theorem connIds_disconnect_imp (st : ManagerState) (room : String)
    (ws x : Nat) (hx : x ∈ connIds (disconnect st room ws) room) :
    x ∈ connIds st room ∧ x ≠ ws := by
  cases h : st.rooms room with
  | none =>
    rw [disconnect_none st room ws h] at hx
    simp [connIds, connList, h] at hx
  | some l =>
    cases hl2 : l.filter (fun p => p.1 != ws) with
    | nil =>
      have h2 : (disconnect st room ws).rooms room = none := by
        simp [disconnect, h, hl2]
      simp [connIds, connList, h2] at hx
    | cons hd tl =>
      have h2 : (disconnect st room ws).rooms room = some (hd :: tl) := by
        simp [disconnect, h, hl2]
      unfold connIds connList at hx ⊢
      rw [h2] at hx
      rw [h]
      simp only [Option.getD_some, List.mem_map] at hx ⊢
      obtain ⟨p, hp, hpx⟩ := hx
      rw [← hl2] at hp
      have hmem := List.mem_of_mem_filter hp
      have hpred := List.of_mem_filter hp
      simp at hpred
      refine ⟨⟨p, hmem, hpx⟩, ?_⟩
      rw [← hpx]
      exact hpred

theorem connIds_disconnect_preserve (st : ManagerState) (room : String)
    (ws x : Nat) (hx : x ∈ connIds st room) (hne : x ≠ ws) :
    x ∈ connIds (disconnect st room ws) room := by
  unfold connIds connList at hx
  cases h : st.rooms room with
  | none =>
    rw [h] at hx
    simp at hx
  | some l =>
    rw [h] at hx
    simp only [Option.getD_some, List.mem_map] at hx
    obtain ⟨p, hp, hpx⟩ := hx
    have hpf : p ∈ l.filter (fun q => q.1 != ws) := by
      apply List.mem_filter.mpr
      refine ⟨hp, ?_⟩
      simp only [bne_iff_ne, ne_eq]
      rw [hpx]
      exact hne
    cases hl2 : l.filter (fun q => q.1 != ws) with
    | nil =>
      rw [hl2] at hpf
      simp at hpf
    | cons hd tl =>
      have h2 : (disconnect st room ws).rooms room = some (hd :: tl) := by
        simp [disconnect, h, hl2]
      unfold connIds connList
      rw [h2]
      simp only [Option.getD_some, List.mem_map]
      exact ⟨p, hl2 ▸ hpf, hpx⟩

theorem foldl_disconnect_not_mem (room : String) (w : Nat) :
    ∀ (ds : List Nat) (st : ManagerState),
      (w ∈ ds ∨ w ∉ connIds st room) →
      w ∉ connIds (ds.foldl (fun s d => disconnect s room d) st) room := by
  intro ds
  induction ds with
  | nil =>
    intro st h
    rcases h with h | h
    · simp at h
    · simpa using h
  | cons d rest ih =>
    intro st h
    simp only [List.foldl_cons]
    apply ih
    rcases h with h | h
    · rcases List.mem_cons.mp h with rfl | hmem
      · right
        intro hcon
        exact (connIds_disconnect_imp st room w w hcon).2 rfl
      · left
        exact hmem
    · right
      intro hcon
      exact h (connIds_disconnect_imp st room d w hcon).1

theorem foldl_disconnect_preserve (room : String) (w : Nat) :
    ∀ (ds : List Nat) (st : ManagerState), w ∉ ds → w ∈ connIds st room →
      w ∈ connIds (ds.foldl (fun s d => disconnect s room d) st) room := by
  intro ds
  induction ds with
  | nil =>
    intro st _ hx
    simpa using hx
  | cons d rest ih =>
    intro st hnd hx
    simp only [List.foldl_cons]
    rw [List.mem_cons] at hnd
    push_neg at hnd
    exact ih _ hnd.2 (connIds_disconnect_preserve st room d w hx hnd.1)

theorem foldl_disconnect_of_rooms_none (room : String) :
    ∀ (ds : List Nat) (st : ManagerState), st.rooms room = none →
      ds.foldl (fun s d => disconnect s room d) st = st := by
  intro ds
  induction ds with
  | nil =>
    intro st _
    rfl
  | cons d rest ih =>
    intro st h
    simp only [List.foldl_cons]
    rw [disconnect_none st room d h]
    exact ih st h

theorem foldl_disconnect_clears (room : String) :
    ∀ (ds : List Nat) (st : ManagerState) (l : List (Nat × Option String)),
      st.rooms room = some l → l ≠ [] → (∀ p ∈ l, p.1 ∈ ds) →
      ((ds.foldl (fun s d => disconnect s room d) st).rooms room = none ∧
       (ds.foldl (fun s d => disconnect s room d) st).slow_mode room = none ∧
       (ds.foldl (fun s d => disconnect s room d) st).last_message_times room =
         none ∧
       (ds.foldl (fun s d => disconnect s room d) st).active_polls room =
         none) := by
  intro ds
  induction ds with
  | nil =>
    intro st l h hne hall
    exfalso
    cases l with
    | nil => exact hne rfl
    | cons p ps => simpa using hall p (List.mem_cons_self p ps)
  | cons d rest ih =>
    intro st l h hne hall
    simp only [List.foldl_cons]
    cases hl2 : l.filter (fun p => p.1 != d) with
    | nil =>
      have h2 : (disconnect st room d).rooms room = none := by
        simp [disconnect, h, hl2]
      rw [foldl_disconnect_of_rooms_none room rest _ h2]
      refine ⟨h2, ?_, ?_, ?_⟩ <;> simp [disconnect, h, hl2]
    | cons hd tl =>
      have h2 : (disconnect st room d).rooms room = some (hd :: tl) := by
        simp [disconnect, h, hl2]
      apply ih _ (hd :: tl) h2 (by simp)
      intro p hp
      rw [← hl2] at hp
      have hmem := List.mem_of_mem_filter hp
      have hpred := List.of_mem_filter hp
      simp at hpred
      rcases List.mem_cons.mp (hall p hmem) with he | hr
      · exact absurd he hpred
      · exact hr

/-! ## Claims -/

/-- C4: Poll lifecycle round-trip — starting a poll with question "Q?",
options ["A","B"] and duration 30 makes `get_poll` return that poll with
two zero-vote options; `end_poll` removes it and returns the same voterless
shape; a subsequent `get_poll` is empty, and `end_poll` on a room with no
active poll returns the empty result and leaves the state unchanged. -/
theorem poll_lifecycle_round_trip (st : ManagerState) (room : String) :
    get_poll (start_poll st room "Q?" [OptIn.str "A", OptIn.str "B"] 30) room =
      some { question := "Q?",
             options := [{ text := "A", votes := some 0 },
                         { text := "B", votes := some 0 }],
             duration := 30 } ∧
    (end_poll (start_poll st room "Q?" [OptIn.str "A", OptIn.str "B"] 30) room).1 =
      some { question := "Q?",
             options := [{ text := "A", votes := some 0 },
                         { text := "B", votes := some 0 }],
             duration := 30 } ∧
    get_poll
      (end_poll (start_poll st room "Q?" [OptIn.str "A", OptIn.str "B"] 30) room).2
      room = none ∧
    (st.active_polls room = none → end_poll st room = (none, st)) := by
  refine ⟨?_, ?_, ?_, ?_⟩
  · simp [get_poll, start_poll, updMap]
  · simp [end_poll, start_poll, updMap]
  · simp [get_poll, end_poll, start_poll, updMap]
  · intro h
    simp [end_poll, h]

theorem poll_lifecycle_round_trip_witness :
    initial.active_polls "r" = none ∧ end_poll initial "r" = (none, initial) :=
  ⟨rfl, (poll_lifecycle_round_trip initial "r").2.2.2 rfl⟩

/-- C3: the slow-mode cooldown gate — with slow mode off the check is true
and leaves the state untouched; with slow mode on it is true exactly when
`now - last >= 5` (a missing record reads as `last = 0`), an allowed call
records `now` as the new last timestamp, and for a fresh user two calls at
`t1` then `t2` give (true, false) when `t2 - t1 < 5` and (true, true) when
`t2 - t1 >= 5`. -/
theorem slow_mode_cooldown_gate (st : ManagerState) (room u : String)
    (t1 t2 : Nat) :
    (is_slow_mode st room = false →
       check_slow_mode_cooldown st room u t1 = (true, st)) ∧
    (is_slow_mode st room = true →
       ((check_slow_mode_cooldown st room u t1).1 = true ↔
         SLOW_MODE_COOLDOWN ≤ t1 - lastTime st room u)) ∧
    (is_slow_mode st room = true →
       (check_slow_mode_cooldown st room u t1).1 = true →
       lastTime (check_slow_mode_cooldown st room u t1).2 room u = t1) ∧
    (is_slow_mode st room = true → lastTime st room u = 0 →
       SLOW_MODE_COOLDOWN ≤ t1 →
       (check_slow_mode_cooldown st room u t1).1 = true ∧
       (t2 - t1 < SLOW_MODE_COOLDOWN →
          (check_slow_mode_cooldown (check_slow_mode_cooldown st room u t1).2
            room u t2).1 = false) ∧
       (SLOW_MODE_COOLDOWN ≤ t2 - t1 →
          (check_slow_mode_cooldown (check_slow_mode_cooldown st room u t1).2
            room u t2).1 = true)) := by
  refine ⟨?_, ?_, ?_, ?_⟩
  · intro h
    simp [check_slow_mode_cooldown, h]
  · intro h
    rw [check_cooldown_fst st room u t1 h]
    simp
  · intro h ha
    exact check_cooldown_lastTime_allowed st room u t1 h ha
  · intro h h0 h5
    have ha : (check_slow_mode_cooldown st room u t1).1 = true := by
      rw [check_cooldown_fst st room u t1 h, h0]
      simp
      omega
    have hslow : is_slow_mode (check_slow_mode_cooldown st room u t1).2 room =
        true := by
      unfold is_slow_mode
      rw [check_cooldown_slow_mode_eq]
      exact h
    have hlast : lastTime (check_slow_mode_cooldown st room u t1).2 room u =
        t1 := check_cooldown_lastTime_allowed st room u t1 h ha
    refine ⟨ha, ?_, ?_⟩
    · intro hlt
      rw [check_cooldown_fst _ room u t2 hslow, hlast]
      simp
      omega
    · intro hge
      rw [check_cooldown_fst _ room u t2 hslow, hlast]
      simp
      omega

theorem slow_mode_cooldown_gate_witness :
    is_slow_mode (set_slow_mode (connect initial "r" 1 (some "bob")) "r" true)
        "r" = true ∧
    lastTime (set_slow_mode (connect initial "r" 1 (some "bob")) "r" true) "r"
        "bob" = 0 ∧
    SLOW_MODE_COOLDOWN ≤ 100 ∧
    (check_slow_mode_cooldown
        (set_slow_mode (connect initial "r" 1 (some "bob")) "r" true) "r" "bob"
        100).1 = true ∧
    (103 - 100 < SLOW_MODE_COOLDOWN →
       (check_slow_mode_cooldown
          (check_slow_mode_cooldown
            (set_slow_mode (connect initial "r" 1 (some "bob")) "r" true) "r"
            "bob" 100).2 "r" "bob" 103).1 = false) :=
  ⟨by decide, by decide, by decide,
   (slow_mode_cooldown_gate
      (set_slow_mode (connect initial "r" 1 (some "bob")) "r" true) "r" "bob"
      100 103).2.2.2 (by decide) (by decide) (by decide) |>.1,
   fun _ =>
     ((slow_mode_cooldown_gate
        (set_slow_mode (connect initial "r" 1 (some "bob")) "r" true) "r" "bob"
        100 103).2.2.2 (by decide) (by decide) (by decide)).2.1 (by decide)⟩

/-- C5: viewer-list derivation — `get_viewer_list` never contains the room
key, has no duplicates, and contains exactly the display names
(anonymous = "Anonymous") of the room's connections other than the room
key; concretely, "alice" joining her own room is invisible, while "bob"
joining twice gives viewer list ["bob"] but connection count 2. -/
theorem viewer_list_derivation :
    (∀ (st : ManagerState) (room : String), room ∉ get_viewer_list st room) ∧
    (∀ (st : ManagerState) (room : String),
       (get_viewer_list st room).Nodup) ∧
    (∀ (st : ManagerState) (room x : String),
       x ∈ get_viewer_list st room ↔
         x ≠ room ∧ ∃ c ∈ connList st room, display c = x) ∧
    get_viewer_list (connect initial "alice" 1 (some "alice")) "alice" = [] ∧
    get_viewer_list
      (connect (connect initial "alice" 1 (some "bob")) "alice" 2 (some "bob"))
      "alice" = ["bob"] ∧
    get_room_count
      (connect (connect initial "alice" 1 (some "bob")) "alice" 2 (some "bob"))
      "alice" = 2 := by
  have hchar : ∀ (st : ManagerState) (room x : String),
      x ∈ get_viewer_list st room ↔
        x ≠ room ∧ ∃ c ∈ connList st room, display c = x := by
    intro st room x
    unfold get_viewer_list connList
    cases h : st.rooms room with
    | none => simp
    | some conns => simp [viewersAux_mem]
  refine ⟨?_, ?_, hchar, ?_, ?_, ?_⟩
  · intro st room hmem
    exact ((hchar st room room).mp hmem).1 rfl
  · intro st room
    unfold get_viewer_list
    cases h : st.rooms room with
    | none => simp
    | some conns => exact viewersAux_nodup room conns []
  · decide
  · decide
  · decide

theorem viewer_list_derivation_witness :
    "bob" ∈ get_viewer_list (connect initial "alice" 1 (some "bob")) "alice" :=
  (viewer_list_derivation.2.2.1 (connect initial "alice" 1 (some "bob"))
      "alice" "bob").mpr
    ⟨by decide, (1, some "bob"), by decide, rfl⟩

theorem bumpVote_length (opts : List PollOption) (n : Nat) :
    (bumpVote opts n).length = opts.length := by
  induction opts generalizing n with
  | nil => simp [bumpVote]
  | cons o rest ih =>
    cases n with
    | zero => simp [bumpVote]
    | succ m => simp [bumpVote, ih]

theorem bumpVote_get_same (opts : List PollOption) (n : Nat)
    (h : n < opts.length) :
    ((bumpVote opts n).get? n).map PollOption.count =
      (opts.get? n).map (fun o => o.count + 1) ∧
    ((bumpVote opts n).get? n).map PollOption.text =
      (opts.get? n).map PollOption.text := by
  induction opts generalizing n with
  | nil => simp at h
  | cons o rest ih =>
    cases n with
    | zero => simp [bumpVote, PollOption.count]
    | succ m =>
      simp only [bumpVote, List.get?]
      exact ih m (by simpa using h)

theorem bumpVote_get_other (opts : List PollOption) (n k : Nat) (h : k ≠ n) :
    (bumpVote opts n).get? k = opts.get? k := by
  induction opts generalizing n k with
  | nil => simp [bumpVote]
  | cons o rest ih =>
    cases n with
    | zero =>
      cases k with
      | zero => exact absurd rfl h
      | succ j => simp [bumpVote]
    | succ m =>
      cases k with
      | zero => simp [bumpVote]
      | succ j => simpa [bumpVote] using ih m j (by omega)

/-- C2: one vote per user per poll — a first vote by a user not in the
voters set, with a valid option index, returns true, bumps exactly that
option's count by one (text and all other options unchanged), and records
the user; any immediately following vote by the same user returns false
for every option index and leaves the state unchanged. -/
theorem vote_once_per_user (st : ManagerState) (room u : String) (poll : Poll)
    (i : Int) (h1 : st.active_polls room = some poll) (h2 : u ∉ poll.voters)
    (h3 : 0 ≤ i) (h4 : i < (poll.options.length : Int)) :
    (vote_poll st room u i).1 = true ∧
    (∃ poll2, (vote_poll st room u i).2.active_polls room = some poll2 ∧
       u ∈ poll2.voters ∧
       poll2.options.length = poll.options.length ∧
       (poll2.options.get? i.toNat).map PollOption.count =
         (poll.options.get? i.toNat).map (fun o => o.count + 1) ∧
       (poll2.options.get? i.toNat).map PollOption.text =
         (poll.options.get? i.toNat).map PollOption.text ∧
       (∀ k, k ≠ i.toNat → poll2.options.get? k = poll.options.get? k)) ∧
    (∀ j, vote_poll (vote_poll st room u i).2 room u j =
       (false, (vote_poll st room u i).2)) := by
  have hrange : ¬(i < 0 ∨ (poll.options.length : Int) ≤ i) := by omega
  have hlt : i.toNat < poll.options.length := by omega
  have hvp : vote_poll st room u i =
      (true, { st with active_polls := updMap st.active_polls room (some
          { poll with
            options := bumpVote poll.options i.toNat
            voters := u :: poll.voters }) }) := by
    simp [vote_poll, h1, h2, hrange]
  refine ⟨by rw [hvp], ?_, ?_⟩
  · refine ⟨{ poll with
        options := bumpVote poll.options i.toNat
        voters := u :: poll.voters },
      by rw [hvp]; simp [updMap], ?_, ?_, ?_, ?_, ?_⟩
    · exact List.mem_cons_self u poll.voters
    · exact bumpVote_length poll.options i.toNat
    · exact (bumpVote_get_same poll.options i.toNat hlt).1
    · exact (bumpVote_get_same poll.options i.toNat hlt).2
    · exact fun k hk => bumpVote_get_other poll.options i.toNat k hk
  · intro j
    rw [hvp]
    simp [vote_poll, updMap]

theorem vote_once_per_user_witness :
    ((start_poll initial "r" "Q?" [OptIn.str "A", OptIn.str "B"] 30).active_polls
        "r" =
      some { question := "Q?",
             options := [{ text := "A", votes := some 0 },
                         { text := "B", votes := some 0 }],
             duration := 30, voters := [] }) ∧
    (vote_poll (start_poll initial "r" "Q?" [OptIn.str "A", OptIn.str "B"] 30)
        "r" "u" 0).1 = true :=
  ⟨by decide,
   (vote_once_per_user
      (start_poll initial "r" "Q?" [OptIn.str "A", OptIn.str "B"] 30) "r" "u"
      { question := "Q?",
        options := [{ text := "A", votes := some 0 },
                    { text := "B", votes := some 0 }],
        duration := 30, voters := [] }
      0 (by decide) (by decide) (by decide) (by decide)).1⟩

/-- C8: invalid poll input is non-fatal — `vote_poll` returns false with the
state unchanged when no poll is running, when the user already voted, and
when the option index is out of range; and whenever `vote_poll` rejects,
the POLL_VOTE frame handler answers only with a private error event. -/
theorem invalid_vote_nonfatal (st : ManagerState) (room u : String) (i : Int)
    (poll : Poll) :
    (st.active_polls room = none → vote_poll st room u i = (false, st)) ∧
    (st.active_polls room = some poll → u ∈ poll.voters →
       vote_poll st room u i = (false, st)) ∧
    (st.active_polls room = some poll →
       (i < 0 ∨ (poll.options.length : Int) ≤ i) →
       vote_poll st room u i = (false, st)) ∧
    ((vote_poll st room u i).1 = false →
       handlePollVote st room (some u) (some i) =
         ((vote_poll st room u i).2,
          [Effect.personal (Event.error "Already voted or invalid option")])) := by
  refine ⟨?_, ?_, ?_, ?_⟩
  · intro h; simp [vote_poll, h]
  · intro h hv; simp [vote_poll, h, hv]
  · intro h hr
    by_cases hv : u ∈ poll.voters
    · simp [vote_poll, h, hv]
    · simp [vote_poll, h, hv, hr]
  · intro h
    simp [handlePollVote, h]

theorem invalid_vote_nonfatal_witness :
    initial.active_polls "r" = none ∧
      vote_poll initial "r" "u" 0 = (false, initial) :=
  ⟨rfl,
   (invalid_vote_nonfatal initial "r" "u" 0
      { question := "", options := [], duration := 0, voters := [] }).1 rfl⟩

/-- C1 counterexample: the claim that no operation of the registry, rate
limiter or poll engine leaves dangling per-room state for a room with zero
connections is false — `set_slow_mode` on a room with no connections
records a slow-mode flag for it, so that room has `count = 0` yet
`is_slow_mode = true`. -/
theorem slow_mode_dangling_cex :
    get_room_count (set_slow_mode initial "r" true) "r" = 0 ∧
    is_slow_mode (set_slow_mode initial "r" true) "r" = true := by
  exact ⟨by decide, by decide⟩

/-- C1 (amended): room-evacuation invariant — when `disconnect` removes the
last connection of a room (every entry of the room's list carries the
departing socket), the room key together with its slow-mode flag, cooldown
table and poll are all deleted, so `count = 0`, `is_slow_mode = false` and
the current poll is empty; likewise a `broadcast` in which every member's
send fails (failed-send removal) evacuates the room and clears all its
state. Operations other than these removals can, however, create state for
a room with zero connections (see the counterexample). -/
theorem room_evacuation_clears_state (st : ManagerState) (room : String)
    (ws : Nat) (l : List (Nat × Option String)) (fails : Nat → Bool) :
    (st.rooms room = some l → l.filter (fun p => p.1 != ws) = [] →
       get_room_count (disconnect st room ws) room = 0 ∧
       is_slow_mode (disconnect st room ws) room = false ∧
       get_poll (disconnect st room ws) room = none ∧
       (disconnect st room ws).last_message_times room = none ∧
       (disconnect st room ws).rooms room = none) ∧
    (st.rooms room = some l → l ≠ [] → (∀ p ∈ l, fails p.1 = true) →
       get_room_count (broadcast st room fails).1 room = 0 ∧
       is_slow_mode (broadcast st room fails).1 room = false ∧
       get_poll (broadcast st room fails).1 room = none ∧
       ((broadcast st room fails).1).last_message_times room = none) := by
  constructor
  · intro h hf
    have hemp : (l.filter (fun p => p.1 != ws)).isEmpty = true := by
      rw [hf]
      rfl
    have h2 : (disconnect st room ws).rooms room = none := by
      simp [disconnect, h, hf]
    refine ⟨?_, ?_, ?_, ?_, h2⟩
    · simp [get_room_count, connList, h2]
    · have : (disconnect st room ws).slow_mode room = none := by
        simp [disconnect, h, hf]
      simp [is_slow_mode, this]
    · have : (disconnect st room ws).active_polls room = none := by
        simp [disconnect, h, hf]
      simp [get_poll, this]
    · simp [disconnect, h, hf]
  · intro h hne hall
    have hfilter : l.filter (fun p => fails p.1) = l :=
      List.filter_eq_self.mpr (fun p hp => hall p hp)
    have hb : (broadcast st room fails).1 =
        ((l.map (fun p => p.1)).foldl (fun s d => disconnect s room d) st) := by
      simp [broadcast, h, hfilter]
    have hc := foldl_disconnect_clears room (l.map (fun p => p.1)) st l h hne
      (fun p hp => List.mem_map_of_mem _ hp)
    rw [hb]
    refine ⟨?_, ?_, ?_, hc.2.2.1⟩
    · simp [get_room_count, connList, hc.1]
    · simp [is_slow_mode, hc.2.1]
    · simp [get_poll, hc.2.2.2]

theorem room_evacuation_clears_state_witness :
    (connect initial "r" 1 (some "bob")).rooms "r" =
      some [(1, some "bob")] ∧
    [((1 : Nat), (some "bob" : Option String))].filter (fun p => p.1 != 1) =
      [] ∧
    is_slow_mode (disconnect (connect initial "r" 1 (some "bob")) "r" 1) "r" =
      false :=
  ⟨by decide, by decide,
   ((room_evacuation_clears_state (connect initial "r" 1 (some "bob")) "r" 1
      [(1, some "bob")] (fun _ => true)).1 (by decide) (by decide)).2.1⟩

/-- C6: broadcast self-healing and non-propagation — a broadcast attempts
delivery to every connection in the room's membership snapshot at call time
(the attempted list is exactly the snapshot's ids, so one failing recipient
never prevents the rest from being attempted); every connection whose send
fails is removed from the room as by `disconnect`, and every connection
whose send succeeds stays; `broadcast` is a total function, so no
exception reaches its caller. -/
theorem broadcast_self_healing (st : ManagerState) (room : String)
    (fails : Nat → Bool) :
    (broadcast st room fails).2 = connIds st room ∧
    (∀ w, fails w = true →
       w ∉ connIds (broadcast st room fails).1 room) ∧
    (∀ w, fails w = false → w ∈ connIds st room →
       w ∈ connIds (broadcast st room fails).1 room) := by
  cases h : st.rooms room with
  | none =>
    have hb : broadcast st room fails = (st, []) := by
      simp [broadcast, h]
    rw [hb]
    refine ⟨?_, ?_, ?_⟩
    · simp [connIds, connList, h]
    · intro w _
      simp [connIds, connList, h]
    · intro w _ hx
      exact hx
  | some l =>
    have hb : broadcast st room fails =
        (((l.filter (fun p => fails p.1)).map (fun p => p.1)).foldl
           (fun s d => disconnect s room d) st,
         l.map (fun p => p.1)) := by
      simp [broadcast, h]
    rw [hb]
    refine ⟨?_, ?_, ?_⟩
    · simp [connIds, connList, h]
    · intro w hw
      apply foldl_disconnect_not_mem
      by_cases hmem : w ∈ connIds st room
      · left
        unfold connIds connList at hmem
        rw [h] at hmem
        simp only [Option.getD_some, List.mem_map] at hmem
        obtain ⟨p, hp, hpw⟩ := hmem
        simp only [List.mem_map]
        refine ⟨p, ?_, hpw⟩
        apply List.mem_filter.mpr
        refine ⟨hp, ?_⟩
        rw [hpw]
        exact hw
      · right
        exact hmem
    · intro w hw hx
      apply foldl_disconnect_preserve
      · simp only [List.mem_map]
        rintro ⟨p, hp, hpw⟩
        have hpred := (List.mem_filter.mp hp).2
        rw [hpw, hw] at hpred
        simp at hpred
      · exact hx

theorem broadcast_self_healing_witness :
    ((fun w => w == 1) : Nat → Bool) 1 = true ∧
    1 ∉ connIds
        (broadcast
          (connect (connect initial "r" 1 (some "a")) "r" 2 (some "b")) "r"
          (fun w => w == 1)).1 "r" :=
  ⟨rfl,
   (broadcast_self_healing
      (connect (connect initial "r" 1 (some "a")) "r" 2 (some "b")) "r"
      (fun w => w == 1)).2.1 1 rfl⟩

/-- C9: disconnect is idempotent and total — removing a connection that is
not in the room's connection list (including when the room does not exist)
changes nothing, and disconnecting the same connection twice equals
disconnecting it once. (`st.rooms room ≠ some []` excludes the states the
program never constructs: a present room always has at least one
connection.) -/
theorem disconnect_idempotent_total (st : ManagerState) (room : String)
    (ws : Nat) :
    (st.rooms room ≠ some [] → ws ∉ connIds st room →
       disconnect st room ws = st) ∧
    disconnect (disconnect st room ws) room ws = disconnect st room ws := by
  refine ⟨fun h1 h2 => disconnect_of_not_mem st room ws h1 h2, ?_⟩
  cases h : st.rooms room with
  | none =>
    have hid : disconnect st room ws = st := disconnect_none st room ws h
    rw [hid]
    exact hid
  | some l =>
    cases hl2 : l.filter (fun p => p.1 != ws) with
    | nil =>
      have h2 : (disconnect st room ws).rooms room = none := by
        simp [disconnect, h, hl2]
      exact disconnect_none _ room ws h2
    | cons hd tl =>
      have h2 : (disconnect st room ws).rooms room = some (hd :: tl) := by
        simp [disconnect, h, hl2]
      apply disconnect_of_not_mem
      · rw [h2]
        intro hcon
        simp at hcon
      · unfold connIds connList
        rw [h2]
        simp only [Option.getD_some, List.mem_map]
        rintro ⟨p, hp, hpw⟩
        rw [← hl2] at hp
        have hpred := List.of_mem_filter hp
        simp at hpred
        exact hpred hpw

theorem disconnect_idempotent_total_witness :
    (connect initial "r" 1 (some "bob")).rooms "r" ≠ some [] ∧
    2 ∉ connIds (connect initial "r" 1 (some "bob")) "r" ∧
    disconnect (connect initial "r" 1 (some "bob")) "r" 2 =
      connect initial "r" 1 (some "bob") :=
  ⟨by decide, by decide,
   (disconnect_idempotent_total (connect initial "r" 1 (some "bob")) "r"
      2).1 (by decide) (by decide)⟩

/-- C7: chat admission control — an anonymous sender of a chat-text frame
gets exactly one private error and nothing is persisted or broadcast; a
non-creator rejected by the cooldown gate gets exactly one private error
whose text names the 5-second window, with nothing persisted or broadcast;
and the creator's frame is accepted without ever invoking the cooldown
check (the state is returned untouched). -/
theorem chat_admission_control (st : ManagerState) (room u rawText : String)
    (now : Nat) (dbId : Option Nat) :
    (handleChatFrame st room none rawText now dbId =
       (st,
        [Effect.personal
          (Event.error "You must be logged in to send messages")])) ∧
    (u ≠ room → pyStrip rawText ≠ "" →
       (check_slow_mode_cooldown st room u now).1 = false →
       handleChatFrame st room (some u) rawText now dbId =
         ((check_slow_mode_cooldown st room u now).2,
          [Effect.personal (Event.error cooldownErrorText)])) ∧
    cooldownErrorText = "Slow mode is on. Wait 5s between messages." ∧
    (u = room → pyStrip rawText ≠ "" →
       handleChatFrame st room (some u) rawText now dbId =
         acceptChat st room u (pyStrip rawText) now dbId true) ∧
    (u = room → pyStrip rawText ≠ "" →
       (handleChatFrame st room (some u) rawText now dbId).1 = st) := by
  refine ⟨rfl, ?_, by decide, ?_, ?_⟩
  · intro h1 h2 h3
    simp [handleChatFrame, h1, h2, h3]
  · intro h1 h2
    simp [handleChatFrame, h1, h2]
  · intro h1 h2
    simp [handleChatFrame, h1, h2, acceptChat]

theorem chat_admission_control_witness :
    ("bob" : String) ≠ "r" ∧ pyStrip "hi" ≠ "" ∧
    (check_slow_mode_cooldown
        (check_slow_mode_cooldown (set_slow_mode initial "r" true) "r" "bob"
          100).2 "r" "bob" 103).1 = false ∧
    handleChatFrame
        (check_slow_mode_cooldown (set_slow_mode initial "r" true) "r" "bob"
          100).2 "r" (some "bob") "hi" 103 none =
      ((check_slow_mode_cooldown
          (check_slow_mode_cooldown (set_slow_mode initial "r" true) "r" "bob"
            100).2 "r" "bob" 103).2,
       [Effect.personal (Event.error cooldownErrorText)]) :=
  ⟨by decide, by decide, by decide,
   (chat_admission_control
      (check_slow_mode_cooldown (set_slow_mode initial "r" true) "r" "bob"
        100).2 "r" "bob" "hi" 103 none).2.1 (by decide) (by decide)
     (by decide)⟩

/-- C10: an authenticated connection's chat frame whose text strips to
empty is silently dropped — no state change and no effects at all. -/
theorem empty_chat_frame_ignored (st : ManagerState) (room u rawText : String)
    (now : Nat) (dbId : Option Nat) (h : pyStrip rawText = "") :
    handleChatFrame st room (some u) rawText now dbId = (st, []) := by
  simp [handleChatFrame, h]

theorem empty_chat_frame_ignored_witness :
    pyStrip "  " = "" ∧
      handleChatFrame initial "r" (some "bob") "  " 7 none = (initial, []) :=
  ⟨by decide, empty_chat_frame_ignored initial "r" "bob" "  " 7 none (by decide)⟩

end Chat
